import Mathlib

/-!
Verification of the SARIMA model-selection and forecasting core of
`stock_prediction.py`.

The embedding below follows the source closely:

* `parameters_list` models `list(product(ps, qs, Ps, Qs))` (lines 203-214);
* `optimize_SARIMA` models the grid-search loop (lines 217-250): the
  SARIMAX fit call wrapped in `try/except` is abstracted as a
  deterministic oracle `fit : ModelOrder → Option FittedModel` (a `none`
  result is a fit failure caught by the bare `except: continue`); AIC
  values are rationals; `best_aic` starts at `float('inf')`, modelled as
  `⊤ : WithTop ℚ`;
* `best_model` models lines 255-262, which re-fit the order found in the
  first row of the sorted result table;
* `mean_absolute_percentage_error` models line 266-267 with NumPy
  semantics: a division whose denominator is zero yields a non-finite
  float (inf or nan), modelled as the marker `none`, which then poisons
  the mean; no exception is ever raised;
* `arima_model` models lines 278-281 (fitted values with the first
  `s + d` positions overwritten by `np.NaN`), `sarimaError` models the
  error computation of lines 287/299 on the `[s+d:]` slices;
* `FittedModel.predict` models `model.predict(start, end)`, which in
  statsmodels returns the predictions at the integer positions
  `start..end` inclusive.
-/

namespace StockPred

/-- A model order (p, q, P, Q): non-seasonal AR/MA and seasonal AR/MA. -/
abbrev ModelOrder := ℕ × ℕ × ℕ × ℕ

/-- Source line 204: non-seasonal integration order. -/
def d : ℕ := 1

/-- Source line 207: seasonal integration order. -/
def D : ℕ := 1

/-- Source line 209: season length. -/
def s : ℕ := 5

/-- Source lines 212-213: `parameters_list = list(product(ps, qs, Ps, Qs))`.
itertools.product iterates the rightmost range fastest, i.e. it is the
nested flat-map below. The four ranges are kept as parameters; in the
source each is `range(0, 5)`, i.e. `List.range 5`. -/
def parameters_list (ps qs Ps Qs : List ℕ) : List ModelOrder :=
  ps.flatMap fun p => qs.flatMap fun q => Ps.flatMap fun P => Qs.map fun Q => (p, q, P, Q)

/-- Abstraction of a fitted SARIMAX results object: its AIC, its in-sample
fitted values (aligned with the input series), and its point prediction at
any integer position (the function behind `model.predict`). -/
structure FittedModel where
  aic : ℚ
  fittedvalues : List ℚ
  predictAt : ℕ → ℚ

/-- State of the search loop of `optimize_SARIMA` (source lines 227-243):
the accumulated `results` list, `best_aic`, and the retained best model
together with its parameters. -/
structure SearchState where
  results : List (ModelOrder × ℚ)
  best_aic : WithTop ℚ
  best : Option (ModelOrder × FittedModel)

/-- Source lines 227-228: `results = []`, `best_aic = float('inf')`;
no `best_model` is bound yet. -/
def initState : SearchState := ⟨[], ⊤, none⟩

/-- One iteration of the loop at source lines 230-243: try to fit the
candidate (a `none` oracle answer is the exception swallowed by
`except: continue`); on success, update the retained best when the AIC is
strictly smaller, then append `[param, model.aic]` to `results`. -/
def searchStep (fit : ModelOrder → Option FittedModel) (st : SearchState)
    (param : ModelOrder) : SearchState :=
  match fit param with
  | none => st
  | some model =>
    let st1 : SearchState :=
      if (model.aic : WithTop ℚ) < st.best_aic then
        { st with best_aic := (model.aic : WithTop ℚ), best := some (param, model) }
      else st
    { st1 with results := st1.results ++ [(param, model.aic)] }

/-- The whole loop of `optimize_SARIMA`, folded over the candidate list. -/
def searchLoop (fit : ModelOrder → Option FittedModel) (params : List ModelOrder) :
    SearchState :=
  params.foldl (searchStep fit) initState

/-- Errors that the search can surface to the caller.
`lengthMismatch` is the pandas `ValueError` raised at source line 246 when
`result_table.columns = ['parameters', 'aic']` is applied to the empty
frame built from an empty `results` list (a 0-column frame cannot take 2
column labels). `noViableModel` is the spec's `NoViableModelError`
taxonomy entry; it is modelled from the spec only, to state that the code
never produces it. -/
inductive SearchError where
  | lengthMismatch
  | noViableModel
deriving DecidableEq

/-- Comparison used by `result_table.sort_values(by='aic', ascending=True)`. -/
def aicLe (a b : ModelOrder × ℚ) : Prop := a.2 ≤ b.2

instance : DecidableRel aicLe := fun a b => inferInstanceAs (Decidable (a.2 ≤ b.2))

instance : IsTotal (ModelOrder × ℚ) aicLe := ⟨fun a b => le_total a.2 b.2⟩

instance : IsTrans (ModelOrder × ℚ) aicLe := ⟨fun _ _ _ h h2 => le_trans h h2⟩

/-- Source line 248: sort the result table ascending by the aic column. -/
def sortByAic (l : List (ModelOrder × ℚ)) : List (ModelOrder × ℚ) :=
  List.insertionSort aicLe l

/-- Source lines 217-250 (`optimize_SARIMA`): run the loop, build the
result table and sort it ascending by AIC. With an empty `results` list
the column labelling at line 246 raises, which the model reports as
`SearchError.lengthMismatch`. -/
def optimize_SARIMA (fit : ModelOrder → Option FittedModel) (params : List ModelOrder) :
    Except SearchError (List (ModelOrder × ℚ)) :=
  let st := searchLoop fit params
  match st.results with
  | [] => .error .lengthMismatch
  | _ => .ok (sortByAic st.results)

/-- Source lines 255-262: read the parameters of row 0 of the sorted
result table and fit a SARIMAX model with them again (the loop-local best
model is not returned by `optimize_SARIMA`; the script re-fits). The fit
oracle is deterministic, so the re-fit coincides with the model retained
inside the loop. -/
def best_model (fit : ModelOrder → Option FittedModel) (params : List ModelOrder) :
    Option FittedModel :=
  match optimize_SARIMA fit params with
  | .error _ => none
  | .ok table => table.head?.bind fun e => fit e.1

/-- The per-candidate outcomes the loop records: one `(param, aic)` entry
for exactly those candidates whose fit succeeds, in enumeration order. -/
def successResults (fit : ModelOrder → Option FittedModel) (params : List ModelOrder) :
    List (ModelOrder × ℚ) :=
  params.filterMap fun p => (fit p).map fun m => (p, m.aic)

/-- Minimum of the aic column, `⊤` for the empty table (the loop's
initial `best_aic = float('inf')`). -/
def minAic (l : List (ModelOrder × ℚ)) : WithTop ℚ :=
  l.foldr (fun e acc => min (e.2 : WithTop ℚ) acc) ⊤

/-- The first entry of a table attaining the minimal AIC, if any. -/
def firstMinEntry (l : List (ModelOrder × ℚ)) : Option (ModelOrder × ℚ) :=
  l.find? fun e => decide ((e.2 : WithTop ℚ) ≤ minAic l)

/-- Strict lexicographic order on (p, q, P, Q) tuples, in the order the
ranges are supplied to itertools.product. -/
def ordLt (a b : ModelOrder) : Prop :=
  a.1 < b.1 ∨ (a.1 = b.1 ∧ (a.2.1 < b.2.1 ∨ (a.2.1 = b.2.1 ∧
    (a.2.2.1 < b.2.2.1 ∨ (a.2.2.1 = b.2.2.1 ∧ a.2.2.2 < b.2.2.2)))))

/-- NumPy elementwise division: a zero denominator yields a non-finite
float (inf for a nonzero numerator, nan for 0/0), modelled as `none`;
no exception is raised. -/
def npDiv (a b : ℚ) : Option ℚ := if b = 0 then none else some (a / b)

/-- NumPy sum of an array that may hold non-finite entries: any
non-finite entry (inf or nan, the marker `none`) makes the sum
non-finite. -/
def npSum (xs : List (Option ℚ)) : Option ℚ :=
  xs.foldr (fun x acc =>
    match x, acc with
    | some a, some b => some (a + b)
    | _, _ => none) (some 0)

/-- NumPy mean of an array that may hold non-finite entries: any
non-finite entry makes the mean non-finite, and the mean of an empty
array is nan; both are modelled as `none`. -/
def npMean (xs : List (Option ℚ)) : Option ℚ :=
  if xs = [] then none
  else (npSum xs).map fun t => t / (xs.length : ℚ)

/-- Elementwise `np.abs((y_true - y_pred) / y_true)` from source line 267. -/
def mape_terms (y_true y_pred : List ℚ) : List (Option ℚ) :=
  (y_true.zip y_pred).map fun ab => (npDiv (ab.1 - ab.2) ab.1).map fun x => |x|

/-- Source lines 266-267: `np.mean(np.abs((y_true - y_pred) / y_true)) * 100`. -/
def mean_absolute_percentage_error (y_true y_pred : List ℚ) : Option ℚ :=
  (npMean (mape_terms y_true y_pred)).map fun x => x * 100

/-- Source lines 279-281: the `arima_model` column holds the model's
fitted values, after which the positional slice `[:s+d]` is overwritten
with `np.NaN` (the marker `none`). -/
def arima_model (model : FittedModel) : List (Option ℚ) :=
  (model.fittedvalues.map some).mapIdx fun i x => if i < s + d then none else x

/-- Source lines 287 and 299: the percentage error is computed on the
positional slices `[s+d:]` of the actual series and the fitted values. -/
def sarimaError (series : List ℚ) (model : FittedModel) : Option ℚ :=
  mean_absolute_percentage_error (series.drop (s + d)) (model.fittedvalues.drop (s + d))

/-- statsmodels `model.predict(start, end)`: the predictions at the
integer positions `start..end`, end inclusive. -/
def FittedModel.predict (m : FittedModel) (start stop : ℕ) : List ℚ :=
  (List.range' start (stop + 1 - start)).map m.predictAt

/-- Source lines 284 and 298: forecast `horizon` steps beyond a series of
`numObs` observations via `model.predict(start=numObs, end=numObs + horizon)`. -/
def forecastValues (m : FittedModel) (numObs horizon : ℕ) : List ℚ :=
  m.predict numObs (numObs + horizon)

/-- Concrete fitted model used to instantiate hypotheses on explicit inputs. -/
def witModel : FittedModel := ⟨3, [], fun _ => 0⟩

/-- Concrete fit oracle succeeding on the single order (0, 0, 0, 0). -/
def witFit : ModelOrder → Option FittedModel :=
  fun o => if o = ((0 : ℕ), (0 : ℕ), (0 : ℕ), (0 : ℕ)) then some witModel else none

/-- Concrete fit oracle failing on every candidate. -/
def witFitNone : ModelOrder → Option FittedModel := fun _ => none

/-- Concrete fitted model whose in-sample values have a 6-entry warm-up. -/
def witModelA : FittedModel := ⟨0, [0, 0, 0, 0, 0, 0, 7], fun _ => 0⟩

/-- Concrete fitted model agreeing with `witModelA` from index 6 on. -/
def witModelB : FittedModel := ⟨0, [8, 8, 8, 8, 8, 8, 7], fun _ => 0⟩

theorem foldl_searchStep_results (fit : ModelOrder → Option FittedModel) :
    ∀ (l : List ModelOrder) (st : SearchState),
      (l.foldl (searchStep fit) st).results = st.results ++ successResults fit l := by
  intro l
  induction l with
  | nil => intro st; simp [successResults]
  | cons p l ih =>
    intro st
    rw [List.foldl_cons, ih]
    cases h : fit p with
    | none =>
      simp [searchStep, h, successResults, List.filterMap_cons]
    | some m =>
      simp only [searchStep, h, successResults, List.filterMap_cons, Option.map_some']
      split <;> simp

theorem searchLoop_results (fit : ModelOrder → Option FittedModel) (params : List ModelOrder) :
    (searchLoop fit params).results = successResults fit params := by
  rw [searchLoop, foldl_searchStep_results]; rfl

theorem minAic_cons (e : ModelOrder × ℚ) (l : List (ModelOrder × ℚ)) :
    minAic (e :: l) = min (e.2 : WithTop ℚ) (minAic l) := rfl

theorem minAic_le_of_mem {e : ModelOrder × ℚ} {l : List (ModelOrder × ℚ)} (h : e ∈ l) :
    minAic l ≤ (e.2 : WithTop ℚ) := by
  induction l with
  | nil => cases h
  | cons x t ih =>
    rcases List.mem_cons.mp h with rfl | ht
    · exact min_le_left _ _
    · exact le_trans (min_le_right _ _) (ih ht)

theorem le_minAic {c : WithTop ℚ} {l : List (ModelOrder × ℚ)}
    (h : ∀ e ∈ l, c ≤ (e.2 : WithTop ℚ)) : c ≤ minAic l := by
  induction l with
  | nil => exact le_top
  | cons x t ih =>
    exact le_min (h x (List.mem_cons_self x t)) (ih fun e he => h e (List.mem_cons_of_mem _ he))

theorem minAic_append (l1 l2 : List (ModelOrder × ℚ)) :
    minAic (l1 ++ l2) = min (minAic l1) (minAic l2) := by
  induction l1 with
  | nil => simp [minAic]
  | cons x t ih => rw [List.cons_append, minAic_cons, minAic_cons, ih, min_assoc]

theorem minAic_perm {l l' : List (ModelOrder × ℚ)} (h : l.Perm l') :
    minAic l = minAic l' := by
  induction h with
  | nil => rfl
  | cons x _ ih => rw [minAic_cons, minAic_cons, ih]
  | swap x y t => rw [minAic_cons, minAic_cons, minAic_cons, minAic_cons, min_left_comm]
  | trans _ _ ih1 ih2 => rw [ih1, ih2]

theorem exists_minAic {l : List (ModelOrder × ℚ)} (h : l ≠ []) :
    ∃ e ∈ l, (e.2 : WithTop ℚ) = minAic l := by
  induction l with
  | nil => exact absurd rfl h
  | cons x t ih =>
    cases t with
    | nil =>
      refine ⟨x, List.mem_cons_self x [], ?_⟩
      simp [minAic]
    | cons y u =>
      rcases ih (by simp) with ⟨e, he, hev⟩
      rcases min_cases (x.2 : WithTop ℚ) (minAic (y :: u)) with ⟨hm, _⟩ | ⟨hm, _⟩
      · exact ⟨x, List.mem_cons_self x _, by rw [minAic_cons, hm]⟩
      · exact ⟨e, List.mem_cons_of_mem _ he, by rw [minAic_cons, hm, ← hev]⟩

theorem sortByAic_perm (l : List (ModelOrder × ℚ)) : (sortByAic l).Perm l :=
  List.perm_insertionSort aicLe l

theorem sortByAic_sorted (l : List (ModelOrder × ℚ)) : List.Sorted aicLe (sortByAic l) :=
  List.sorted_insertionSort aicLe l

theorem head_sortByAic (l : List (ModelOrder × ℚ)) (h : l ≠ []) :
    ∃ e₀, (sortByAic l).head? = some e₀ ∧ e₀ ∈ l ∧ (e₀.2 : WithTop ℚ) = minAic l := by
  have hperm := sortByAic_perm l
  cases hs : sortByAic l with
  | nil =>
    rw [hs] at hperm
    exact absurd hperm.symm.eq_nil h
  | cons e₀ rest =>
    have hsorted := sortByAic_sorted l
    rw [hs] at hsorted hperm
    have hlb : ∀ b ∈ rest, aicLe e₀ b := (List.sorted_cons.mp hsorted).1
    refine ⟨e₀, rfl, hperm.mem_iff.mp (List.mem_cons_self e₀ rest), le_antisymm ?_ ?_⟩
    · refine le_minAic fun u hu => ?_
      rcases List.mem_cons.mp (hperm.mem_iff.mpr hu) with rfl | hur
      · exact le_refl _
      · exact_mod_cast WithTop.coe_le_coe.mpr (hlb u hur)
    · exact minAic_le_of_mem (hperm.mem_iff.mp (List.mem_cons_self e₀ rest))

theorem optimize_eq_ok (fit : ModelOrder → Option FittedModel) (params : List ModelOrder)
    (h : successResults fit params ≠ []) :
    optimize_SARIMA fit params = .ok (sortByAic (successResults fit params)) := by
  cases hs : successResults fit params with
  | nil => exact absurd hs h
  | cons e t => simp [optimize_SARIMA, searchLoop_results, hs]

theorem optimize_eq_error (fit : ModelOrder → Option FittedModel) (params : List ModelOrder)
    (h : successResults fit params = []) :
    optimize_SARIMA fit params = .error .lengthMismatch := by
  simp only [optimize_SARIMA, searchLoop_results, h]

theorem successResults_ne_nil {fit : ModelOrder → Option FittedModel}
    {params : List ModelOrder} (h : params.any (fun p => (fit p).isSome) = true) :
    successResults fit params ≠ [] := by
  rcases List.any_eq_true.mp h with ⟨p, hp, hsome⟩
  rcases Option.isSome_iff_exists.mp hsome with ⟨m, hm⟩
  exact List.ne_nil_of_mem
    (List.mem_filterMap.mpr ⟨p, hp, by rw [hm]; rfl⟩)

theorem mem_successResults {fit : ModelOrder → Option FittedModel} {params : List ModelOrder}
    {e : ModelOrder × ℚ} (h : e ∈ successResults fit params) :
    ∃ m, fit e.1 = some m ∧ m.aic = e.2 := by
  rcases List.mem_filterMap.mp h with ⟨p, _, hpe⟩
  cases hm : fit p with
  | none => rw [hm] at hpe; cases hpe
  | some m =>
    rw [hm] at hpe
    cases hpe
    exact ⟨m, hm, rfl⟩

/-- C1: whenever at least one candidate fits successfully, the search
produces the result table (source lines 217-250) and the script's re-fit
of the first row's parameters (source lines 255-262) produces the best
fitted model, whose AIC is the minimum of the aic column of the table. -/
theorem search_returns_table_and_min_aic_model
    (fit : ModelOrder → Option FittedModel) (params : List ModelOrder)
    (h : params.any (fun p => (fit p).isSome) = true) :
    ∃ table m, optimize_SARIMA fit params = .ok table ∧ table ≠ [] ∧
      best_model fit params = some m ∧ (m.aic : WithTop ℚ) = minAic table := by
  have hne := successResults_ne_nil h
  have hok := optimize_eq_ok fit params hne
  rcases head_sortByAic (successResults fit params) hne with ⟨e₀, hhead, hmem, hmin⟩
  rcases mem_successResults hmem with ⟨m, hm, hmaic⟩
  refine ⟨sortByAic (successResults fit params), m, hok, ?_, ?_, ?_⟩
  · intro hnil
    rw [hnil] at hhead
    cases hhead
  · rw [best_model, hok]
    show (sortByAic (successResults fit params)).head?.bind (fun e => fit e.1) = some m
    rw [hhead]
    exact hm
  · rw [hmaic, hmin, minAic_perm (sortByAic_perm (successResults fit params))]

/-- Witness for C1 at a concrete fit oracle and candidate list. -/
theorem search_returns_table_and_min_aic_model_w :
    ([((0 : ℕ), (0 : ℕ), (0 : ℕ), (0 : ℕ))].any (fun p => (witFit p).isSome) = true) ∧
      (∃ table m,
        optimize_SARIMA witFit [((0 : ℕ), (0 : ℕ), (0 : ℕ), (0 : ℕ))] = .ok table ∧
        table ≠ [] ∧
        best_model witFit [((0 : ℕ), (0 : ℕ), (0 : ℕ), (0 : ℕ))] = some m ∧
        (m.aic : WithTop ℚ) = minAic table) :=
  ⟨by decide, search_returns_table_and_min_aic_model witFit _ (by decide)⟩

/-- C4: per-candidate fit failures are swallowed: the loop's results list
holds one entry per successful candidate (in enumeration order) and, when
some candidate succeeds, the search returns a table that is a permutation
of exactly those entries, raising nothing to the caller. -/
theorem per_candidate_failures_swallowed
    (fit : ModelOrder → Option FittedModel) (params : List ModelOrder)
    (h : params.any (fun p => (fit p).isSome) = true) :
    (searchLoop fit params).results =
        (params.filterMap fun p => (fit p).map fun m => (p, m.aic)) ∧
      ∃ table, optimize_SARIMA fit params = .ok table ∧
        table.Perm (params.filterMap fun p => (fit p).map fun m => (p, m.aic)) :=
  ⟨searchLoop_results fit params,
    sortByAic (successResults fit params), optimize_eq_ok fit params (successResults_ne_nil h),
    sortByAic_perm (successResults fit params)⟩

/-- Witness for C4 at a concrete fit oracle and candidate list. -/
theorem per_candidate_failures_swallowed_w :
    ([((0 : ℕ), 0, 0, 0), ((1 : ℕ), 0, 0, 0)].any (fun p => (witFit p).isSome) = true) ∧
      ((searchLoop witFit [((0 : ℕ), 0, 0, 0), ((1 : ℕ), 0, 0, 0)]).results =
        ([((0 : ℕ), 0, 0, 0), ((1 : ℕ), 0, 0, 0)].filterMap fun p =>
          (witFit p).map fun m => (p, m.aic)) ∧
      ∃ table, optimize_SARIMA witFit [((0 : ℕ), 0, 0, 0), ((1 : ℕ), 0, 0, 0)] = .ok table ∧
        table.Perm ([((0 : ℕ), 0, 0, 0), ((1 : ℕ), 0, 0, 0)].filterMap fun p =>
          (witFit p).map fun m => (p, m.aic))) :=
  ⟨by decide, per_candidate_failures_swallowed witFit _ (by decide)⟩

/-- C3 counterexample: with every candidate failing to fit, the code
raises the pandas length-mismatch ValueError of source line 246 (labelling
an empty frame), not the spec's NoViableModelError; no table is produced,
but the signalled error is not the claimed one. -/
theorem all_fail_error_counter :
    optimize_SARIMA witFitNone [((0 : ℕ), (0 : ℕ), (0 : ℕ), (0 : ℕ))] =
        .error .lengthMismatch ∧
      (Except.error SearchError.lengthMismatch :
          Except SearchError (List (ModelOrder × ℚ))) ≠
        .error .noViableModel := by
  constructor
  · rfl
  · intro hcontra
    cases hcontra

/-- C3 amended: if every candidate fails to fit, the search produces no
result table and raises an error — but it is the generic pandas
length-mismatch ValueError from labelling the empty frame, not a
dedicated NoViableModelError. -/
theorem all_fail_raises_length_mismatch
    (fit : ModelOrder → Option FittedModel) (params : List ModelOrder)
    (h : params.all (fun p => (fit p).isNone) = true) :
    optimize_SARIMA fit params = .error .lengthMismatch := by
  refine optimize_eq_error fit params (List.filterMap_eq_nil_iff.mpr fun p hp => ?_)
  have := List.all_eq_true.mp h p hp
  rw [Option.isNone_iff_eq_none.mp this]
  rfl

theorem minAic_singleton (e : ModelOrder × ℚ) : minAic [e] = (e.2 : WithTop ℚ) := by
  simp [minAic]

theorem firstMinEntry_append_lt {L : List (ModelOrder × ℚ)} {e : ModelOrder × ℚ}
    (h : (e.2 : WithTop ℚ) < minAic L) :
    firstMinEntry (L ++ [e]) = some e := by
  unfold firstMinEntry
  have hmin : minAic (L ++ [e]) = (e.2 : WithTop ℚ) := by
    rw [minAic_append, minAic_singleton, min_eq_right (le_of_lt h)]
  rw [List.find?_append]
  have hL : List.find? (fun u => decide ((u.2 : WithTop ℚ) ≤ minAic (L ++ [e]))) L = none := by
    rw [List.find?_eq_none]
    intro u hu
    simp only [decide_eq_true_eq, hmin]
    exact not_le.mpr (lt_of_lt_of_le h (minAic_le_of_mem hu))
  rw [hL]
  simp [List.find?_cons, hmin]

theorem firstMinEntry_append_ge {L : List (ModelOrder × ℚ)} {e : ModelOrder × ℚ}
    (h : minAic L ≤ (e.2 : WithTop ℚ)) (hL : L ≠ []) :
    firstMinEntry (L ++ [e]) = firstMinEntry L := by
  unfold firstMinEntry
  have hmin : minAic (L ++ [e]) = minAic L := by
    rw [minAic_append, minAic_singleton, min_eq_left h]
  rw [hmin, List.find?_append]
  rcases exists_minAic hL with ⟨u, hu, huv⟩
  have hfind : List.find? (fun v => decide ((v.2 : WithTop ℚ) ≤ minAic L)) L ≠ none := by
    intro hnone
    rw [List.find?_eq_none] at hnone
    exact hnone u hu (by simp [huv])
  rcases Option.ne_none_iff_exists'.mp hfind with ⟨v, hv⟩
  rw [hv]
  rfl

/-- C10: throughout the search loop (that is, after any prefix of the
candidate list, here an arbitrary list), `best_aic` — initialized to
`float('inf')`, i.e. `⊤` — equals the minimum AIC over the successfully
fitted candidates processed so far, and because the update at source line
239 uses strict `<`, the retained best model is the one of the earliest
candidate attaining that minimum. -/
theorem best_aic_invariant (fit : ModelOrder → Option FittedModel)
    (params : List ModelOrder) :
    (searchLoop fit params).best_aic = minAic (successResults fit params) ∧
      (searchLoop fit params).best =
        (firstMinEntry (successResults fit params)).bind fun e =>
          (fit e.1).map fun m => (e.1, m) := by
  induction params using List.reverseRecOn with
  | nil => exact ⟨rfl, rfl⟩
  | append_singleton l x ih =>
    obtain ⟨ih1, ih2⟩ := ih
    have hloop : searchLoop fit (l ++ [x]) = searchStep fit (searchLoop fit l) x := by
      simp [searchLoop]
    cases hx : fit x with
    | none =>
      have h1 : successResults fit (l ++ [x]) = successResults fit l := by
        simp [successResults, List.filterMap_append, hx]
      rw [hloop, h1]
      simp only [searchStep, hx]
      exact ⟨ih1, ih2⟩
    | some m =>
      have h1 : successResults fit (l ++ [x]) =
          successResults fit l ++ [(x, m.aic)] := by
        simp [successResults, List.filterMap_append, hx]
      rw [hloop, h1]
      simp only [searchStep, hx]
      by_cases hc : (m.aic : WithTop ℚ) < minAic (successResults fit l)
      · have hcc : (m.aic : WithTop ℚ) < (searchLoop fit l).best_aic := by
          rw [ih1]; exact hc
        rw [if_pos hcc]
        refine ⟨?_, ?_⟩
        · show (m.aic : WithTop ℚ) = minAic (successResults fit l ++ [(x, m.aic)])
          rw [minAic_append, minAic_singleton, min_eq_right (le_of_lt hc)]
        · show some (x, m) = (firstMinEntry (successResults fit l ++ [(x, m.aic)])).bind
            fun e => (fit e.1).map fun m => (e.1, m)
          rw [firstMinEntry_append_lt (e := (x, m.aic)) hc]
          simp [hx]
      · have hle : minAic (successResults fit l) ≤ (m.aic : WithTop ℚ) := not_lt.mp hc
        have hcc : ¬ (m.aic : WithTop ℚ) < (searchLoop fit l).best_aic := by
          rw [ih1]; exact hc
        rw [if_neg hcc]
        have hL : successResults fit l ≠ [] := by
          intro h0
          rw [h0] at hle
          exact (WithTop.coe_lt_top m.aic).not_le hle
        refine ⟨?_, ?_⟩
        · show (searchLoop fit l).best_aic = minAic (successResults fit l ++ [(x, m.aic)])
          rw [minAic_append, minAic_singleton, min_eq_left hle, ih1]
        · show (searchLoop fit l).best = (firstMinEntry
              (successResults fit l ++ [(x, m.aic)])).bind
            fun e => (fit e.1).map fun m => (e.1, m)
          rw [firstMinEntry_append_ge hle hL]
          exact ih2

/-- Witness for the amended C3 at a concrete all-failing oracle. -/
theorem all_fail_raises_length_mismatch_w :
    ([((0 : ℕ), (0 : ℕ), (0 : ℕ), (0 : ℕ))].all (fun p => (witFitNone p).isNone) = true) ∧
      optimize_SARIMA witFitNone [((0 : ℕ), (0 : ℕ), (0 : ℕ), (0 : ℕ))] =
        .error .lengthMismatch :=
  ⟨by decide, all_fail_raises_length_mismatch witFitNone _ (by decide)⟩

theorem length_flatMap_const {α β : Type} (l : List α) (f : α → List β) (k : ℕ)
    (h : ∀ a ∈ l, (f a).length = k) : (l.flatMap f).length = l.length * k := by
  induction l with
  | nil => simp
  | cons a t ih =>
    rw [List.flatMap_cons, List.length_append, h a (List.mem_cons_self a t),
      ih fun b hb => h b (List.mem_cons_of_mem _ hb), List.length_cons]
    ring

theorem parameters_list_length (ps qs Ps Qs : List ℕ) :
    (parameters_list ps qs Ps Qs).length =
      ps.length * qs.length * Ps.length * Qs.length := by
  have h3 : ∀ p q : ℕ,
      ((Ps.flatMap fun P => Qs.map fun Q => (p, q, P, Q)).length) =
        Ps.length * Qs.length :=
    fun p q => length_flatMap_const _ _ _ fun P _ => by simp
  have h2 : ∀ p : ℕ,
      ((qs.flatMap fun q => Ps.flatMap fun P => Qs.map fun Q => (p, q, P, Q)).length) =
        qs.length * (Ps.length * Qs.length) :=
    fun p => length_flatMap_const _ _ _ fun q _ => h3 p q
  rw [parameters_list, length_flatMap_const _ _ _ fun p _ => h2 p]
  ring

theorem parameters_list_mem (ps qs Ps Qs : List ℕ) (o : ModelOrder) :
    o ∈ parameters_list ps qs Ps Qs ↔
      o.1 ∈ ps ∧ o.2.1 ∈ qs ∧ o.2.2.1 ∈ Ps ∧ o.2.2.2 ∈ Qs := by
  obtain ⟨p, q, P, Q⟩ := o
  simp only [parameters_list, List.mem_flatMap, List.mem_map, Prod.mk.injEq]
  constructor
  · rintro ⟨a, ha, b, hb, c, hc, e, he, rfl, rfl, rfl, rfl⟩
    exact ⟨ha, hb, hc, he⟩
  · rintro ⟨hp, hq, hP, hQ⟩
    exact ⟨p, hp, q, hq, P, hP, Q, hQ, rfl, rfl, rfl, rfl⟩

theorem pairwise_flatMap_of_lt {α : Type} {l : List ℕ} {f : ℕ → List α}
    {R : α → α → Prop} (hl : l.Pairwise (· < ·)) (hf : ∀ n ∈ l, (f n).Pairwise R)
    (hcross : ∀ m n : ℕ, m < n → ∀ x ∈ f m, ∀ y ∈ f n, R x y) :
    (l.flatMap f).Pairwise R := by
  rw [List.pairwise_flatMap]
  exact ⟨hf, hl.imp fun h => fun x hx y hy => hcross _ _ h x hx y hy⟩

theorem parameters_list_pairwise (ps qs Ps Qs : List ℕ)
    (h1 : ps.Pairwise (· < ·)) (h2 : qs.Pairwise (· < ·))
    (h3 : Ps.Pairwise (· < ·)) (h4 : Qs.Pairwise (· < ·)) :
    (parameters_list ps qs Ps Qs).Pairwise ordLt := by
  unfold parameters_list
  refine pairwise_flatMap_of_lt h1 (fun p _ => ?_) (fun p p' hpp x hx y hy => ?_)
  · refine pairwise_flatMap_of_lt h2 (fun q _ => ?_) (fun q q' hqq x hx y hy => ?_)
    · refine pairwise_flatMap_of_lt h3 (fun P _ => ?_) (fun P P' hPP x hx y hy => ?_)
      · rw [List.pairwise_map]
        exact h4.imp fun hQQ => Or.inr ⟨rfl, Or.inr ⟨rfl, Or.inr ⟨rfl, hQQ⟩⟩⟩
      · rcases List.mem_map.mp hx with ⟨Q1, _, rfl⟩
        rcases List.mem_map.mp hy with ⟨Q2, _, rfl⟩
        exact Or.inr ⟨rfl, Or.inr ⟨rfl, Or.inl hPP⟩⟩
    · rcases List.mem_flatMap.mp hx with ⟨P1, _, hx1⟩
      rcases List.mem_map.mp hx1 with ⟨Q1, _, rfl⟩
      rcases List.mem_flatMap.mp hy with ⟨P2, _, hy1⟩
      rcases List.mem_map.mp hy1 with ⟨Q2, _, rfl⟩
      exact Or.inr ⟨rfl, Or.inl hqq⟩
  · rcases List.mem_flatMap.mp hx with ⟨q1, _, hx1⟩
    rcases List.mem_flatMap.mp hx1 with ⟨P1, _, hx2⟩
    rcases List.mem_map.mp hx2 with ⟨Q1, _, rfl⟩
    rcases List.mem_flatMap.mp hy with ⟨q2, _, hy1⟩
    rcases List.mem_flatMap.mp hy1 with ⟨P2, _, hy2⟩
    rcases List.mem_map.mp hy2 with ⟨Q2, _, rfl⟩
    exact Or.inl hpp

theorem ordLt_ne {a b : ModelOrder} (h : ordLt a b) : a ≠ b := by
  rintro rfl
  rcases h with h | ⟨-, h | ⟨-, h | ⟨-, h⟩⟩⟩ <;> exact lt_irrefl _ h

/-- C5: for strictly increasing ranges (as Python `range` objects always
are), `parameters_list` is the full Cartesian product: its length is the
product of the range sizes, it has no duplicates, an order belongs to it
iff each component lies in its range, and it is strictly
lexicographically ordered in the order the ranges are supplied. With the
default ranges 0..4 this gives 625 candidates (see the witness). -/
theorem enumerator_cartesian_product (ps qs Ps Qs : List ℕ)
    (h1 : ps.Pairwise (· < ·)) (h2 : qs.Pairwise (· < ·))
    (h3 : Ps.Pairwise (· < ·)) (h4 : Qs.Pairwise (· < ·)) :
    (parameters_list ps qs Ps Qs).length =
        ps.length * qs.length * Ps.length * Qs.length ∧
      (parameters_list ps qs Ps Qs).Nodup ∧
      (∀ o : ModelOrder, o ∈ parameters_list ps qs Ps Qs ↔
        o.1 ∈ ps ∧ o.2.1 ∈ qs ∧ o.2.2.1 ∈ Ps ∧ o.2.2.2 ∈ Qs) ∧
      (parameters_list ps qs Ps Qs).Pairwise ordLt := by
  have hpw := parameters_list_pairwise ps qs Ps Qs h1 h2 h3 h4
  exact ⟨parameters_list_length ps qs Ps Qs, hpw.imp fun h => ordLt_ne h,
    parameters_list_mem ps qs Ps Qs, hpw⟩

set_option maxRecDepth 40000 in
/-- Witness for C5 at the default ranges `range(0, 5)`: in particular the
enumeration has exactly 5 * 5 * 5 * 5 = 625 candidates. -/
theorem enumerator_cartesian_product_w :
    ((List.range 5).Pairwise (· < ·)) ∧
      (parameters_list (List.range 5) (List.range 5) (List.range 5)
          (List.range 5)).length = 625 ∧
      ((parameters_list (List.range 5) (List.range 5) (List.range 5)
            (List.range 5)).length =
          (List.range 5).length * (List.range 5).length * (List.range 5).length *
            (List.range 5).length ∧
        (parameters_list (List.range 5) (List.range 5) (List.range 5)
          (List.range 5)).Nodup ∧
        (∀ o : ModelOrder, o ∈ parameters_list (List.range 5) (List.range 5)
            (List.range 5) (List.range 5) ↔
          o.1 ∈ List.range 5 ∧ o.2.1 ∈ List.range 5 ∧ o.2.2.1 ∈ List.range 5 ∧
            o.2.2.2 ∈ List.range 5) ∧
        (parameters_list (List.range 5) (List.range 5) (List.range 5)
          (List.range 5)).Pairwise ordLt) :=
  ⟨by decide, by decide,
    enumerator_cartesian_product (List.range 5) (List.range 5) (List.range 5)
      (List.range 5) (by decide) (by decide) (by decide) (by decide)⟩

/-- C9 counterexample: with an empty p-range, the enumerator does not
signal any error — it is a total function that returns the empty product.
There is no rejection of empty ranges anywhere in source lines 203-214. -/
theorem empty_range_counter :
    parameters_list [] (List.range 5) (List.range 5) (List.range 5) = [] := rfl

/-- C9 amended: when any of the four supplied ranges is empty, the
enumerator returns the empty candidate list; it has no failure mode at
all (no InvalidRangeError exists in the code). -/
theorem empty_range_returns_nil (ps qs Ps Qs : List ℕ)
    (h : ps = [] ∨ qs = [] ∨ Ps = [] ∨ Qs = []) :
    parameters_list ps qs Ps Qs = [] := by
  rcases h with rfl | rfl | rfl | rfl <;>
    simp [parameters_list, List.flatMap_eq_nil_iff]

/-- Witness for the amended C9 at a concrete empty range. -/
theorem empty_range_returns_nil_w :
    (([] : List ℕ) = [] ∨ ([0] : List ℕ) = [] ∨ ([0] : List ℕ) = [] ∨
        ([0] : List ℕ) = []) ∧
      parameters_list [] [0] [0] [0] = [] :=
  ⟨Or.inl rfl, empty_range_returns_nil [] [0] [0] [0] (Or.inl rfl)⟩

/-- C8 counterexample: with 1000 observations and horizon 5, the call
`model.predict(start=1000, end=1005)` of source lines 284/298 yields the
predictions at positions 1000..1005 inclusive — 6 future values, not 5. -/
theorem forecast_length_counter :
    (forecastValues witModel 1000 5).length = 6 ∧ (6 : ℕ) ≠ 5 :=
  ⟨by decide, by decide⟩

/-- C8 amended: for every horizon N, the out-of-sample forecast starts
immediately after the last observed index (its first value is the model's
prediction at position numObs) but contains exactly N + 1 values, because
the `end` bound of `model.predict` is inclusive. -/
theorem forecast_horizon_plus_one (m : FittedModel) (numObs horizon : ℕ) :
    (forecastValues m numObs horizon).length = horizon + 1 ∧
      (forecastValues m numObs horizon).head? = some (m.predictAt numObs) := by
  have h : numObs + horizon + 1 - numObs = horizon + 1 := by omega
  constructor
  · simp [forecastValues, FittedModel.predict, List.length_range', h]
  · rw [forecastValues, FittedModel.predict, h, List.range'_succ]
    simp

theorem npSum_of_none : ∀ {xs : List (Option ℚ)}, none ∈ xs → npSum xs = none := by
  intro xs
  induction xs with
  | nil => intro h; cases h
  | cons x t ih =>
    intro h
    rcases List.mem_cons.mp h with rfl | ht
    · rfl
    · rw [npSum, List.foldr_cons]
      rw [npSum] at ih
      rw [ih ht]
      cases x <;> rfl

theorem npMean_of_none {xs : List (Option ℚ)} (h : none ∈ xs) : npMean xs = none := by
  rw [npMean, if_neg (List.ne_nil_of_mem h), npSum_of_none h]
  rfl

theorem mape_terms_has_none {y_true y_pred : List ℚ}
    (hlen : y_true.length = y_pred.length) (h0 : (0 : ℚ) ∈ y_true) :
    none ∈ mape_terms y_true y_pred := by
  rcases List.mem_iff_getElem.mp h0 with ⟨i, hi, hyt⟩
  have hz : i < (y_true.zip y_pred).length := by
    rw [List.length_zip, hlen, min_self]
    exact hlen ▸ hi
  refine List.mem_map.mpr ⟨(y_true.zip y_pred)[i], List.getElem_mem hz, ?_⟩
  rw [List.getElem_zip]
  simp [npDiv, hyt]

/-- C7 counterexample: on a window whose first actual value is exactly
zero, the percentage-error computation of source lines 266-267 raises
nothing: NumPy performs the division, yields a non-finite value (inf or
nan, the marker `none`) and the mean silently evaluates to it. There is
no exception path at all in the computation, so no DivisionByZeroError
can be signalled. -/
theorem zero_actual_counter :
    ((0 : ℚ) ∈ ([0, 1] : List ℚ)) ∧
      mean_absolute_percentage_error [0, 1] [1, 1] = none :=
  ⟨by decide, by decide⟩

/-- C7 amended: whenever some actual value in the window is exactly zero,
the percentage-error computation silently evaluates to a non-finite
result (the marker `none`, numpy's inf/nan) instead of raising any
error. -/
theorem zero_actual_nonfinite (y_true y_pred : List ℚ)
    (hlen : y_true.length = y_pred.length) (h0 : (0 : ℚ) ∈ y_true) :
    mean_absolute_percentage_error y_true y_pred = none := by
  rw [mean_absolute_percentage_error, npMean_of_none (mape_terms_has_none hlen h0)]
  rfl

/-- Witness for the amended C7 at a concrete window with a zero actual. -/
theorem zero_actual_nonfinite_w :
    (([0, 1] : List ℚ).length = ([1, 1] : List ℚ).length) ∧
      ((0 : ℚ) ∈ ([0, 1] : List ℚ)) ∧
      mean_absolute_percentage_error [0, 1] [1, 1] = none :=
  ⟨by decide, by decide, zero_actual_nonfinite [0, 1] [1, 1] (by decide) (by decide)⟩

theorem arima_model_take (m : FittedModel) :
    (arima_model m).take (s + d) =
      List.replicate (min (s + d) m.fittedvalues.length) none := by
  apply List.ext_getElem?
  intro n
  rw [List.getElem?_take, List.getElem?_replicate]
  cases hv : m.fittedvalues[n]? with
  | none =>
    have hlen : m.fittedvalues.length ≤ n := List.getElem?_eq_none_iff.mp hv
    have hmin : ¬ n < min (s + d) m.fittedvalues.length := fun hcon =>
      absurd (lt_of_lt_of_le hcon (min_le_right _ _)) (not_lt.mpr hlen)
    simp only [arima_model, List.getElem?_mapIdx, List.getElem?_map, hv]
    rw [if_neg hmin]
    split_ifs <;> rfl
  | some v =>
    have hlen : n < m.fittedvalues.length := by
      by_contra hcon
      rw [List.getElem?_eq_none_iff.mpr (not_lt.mp hcon)] at hv
      cases hv
    simp only [arima_model, List.getElem?_mapIdx, List.getElem?_map, hv]
    by_cases hn : n < s + d
    · rw [if_pos hn, if_pos (lt_min hn hlen)]
      simp [hn]
    · rw [if_neg hn, if_neg fun hcon => hn (lt_of_lt_of_le hcon (min_le_left _ _))]

theorem arima_model_drop (m : FittedModel) :
    (arima_model m).drop (s + d) = (m.fittedvalues.drop (s + d)).map some := by
  apply List.ext_getElem?
  intro n
  rw [List.getElem?_drop, List.getElem?_map, List.getElem?_drop]
  simp only [arima_model, List.getElem?_mapIdx, List.getElem?_map]
  cases hv : m.fittedvalues[s + d + n]? with
  | none => rfl
  | some v =>
    have hge : ¬ s + d + n < s + d := Nat.not_lt.mpr (Nat.le_add_right (s + d) n)
    simp [hge]

/-- C6: the fitted-value column of source lines 279-281 has every
position below s + d = 6 holding the NaN marker `none` (a distinct
no-value marker, not the number 0); the part the error computation reads
(positions from s + d on) is exactly the unmasked fitted values; and the
percentage error of source lines 287/299 is invariant under arbitrary
replacement of the first s + d entries of both the actual series and the
fitted values — for s = 5 and d = 1, indices 0..5 are exactly the
excluded ones. -/
theorem warmup_region_masked_and_excluded (m m' : FittedModel)
    (pre pre' rest fpre fpre' frest : List ℚ)
    (hp : pre.length = s + d) (hp' : pre'.length = s + d)
    (hf : m.fittedvalues = fpre ++ frest) (hf' : m'.fittedvalues = fpre' ++ frest)
    (hl : fpre.length = s + d) (hl' : fpre'.length = s + d) :
    (arima_model m).take (s + d) =
        List.replicate (min (s + d) m.fittedvalues.length) none ∧
      (arima_model m).drop (s + d) = (m.fittedvalues.drop (s + d)).map some ∧
      sarimaError (pre ++ rest) m = sarimaError (pre' ++ rest) m' := by
  refine ⟨arima_model_take m, arima_model_drop m, ?_⟩
  rw [sarimaError, sarimaError, hf, hf', List.drop_left' hp, List.drop_left' hp',
    List.drop_left' hl, List.drop_left' hl']

/-- Witness for C6 at concrete series and fitted models that differ only
in their first six entries. -/
theorem warmup_region_masked_and_excluded_w :
    (([1, 2, 3, 4, 5, 6] : List ℚ).length = s + d) ∧
      (([9, 9, 9, 9, 9, 9] : List ℚ).length = s + d) ∧
      (witModelA.fittedvalues = [0, 0, 0, 0, 0, 0] ++ [7]) ∧
      (witModelB.fittedvalues = [8, 8, 8, 8, 8, 8] ++ [7]) ∧
      (([0, 0, 0, 0, 0, 0] : List ℚ).length = s + d) ∧
      (([8, 8, 8, 8, 8, 8] : List ℚ).length = s + d) ∧
      ((arima_model witModelA).take (s + d) =
          List.replicate (min (s + d) witModelA.fittedvalues.length) none ∧
        (arima_model witModelA).drop (s + d) =
          (witModelA.fittedvalues.drop (s + d)).map some ∧
        sarimaError ([1, 2, 3, 4, 5, 6] ++ [7]) witModelA =
          sarimaError ([9, 9, 9, 9, 9, 9] ++ [7]) witModelB) :=
  ⟨by decide, by decide, by decide, by decide, by decide, by decide,
    warmup_region_masked_and_excluded witModelA witModelB
      [1, 2, 3, 4, 5, 6] [9, 9, 9, 9, 9, 9] [7] [0, 0, 0, 0, 0, 0] [8, 8, 8, 8, 8, 8] [7]
      (by decide) (by decide) (by decide) (by decide) (by decide) (by decide)⟩

end StockPred
